import Mathlib

set_option maxRecDepth 16384

/-!
Shallow embedding of `src/llm_analyzer.py` (class `LLMAnalyzer`) from the
repository SergSAS/Case_01, together with theorems checking the
natural-language specification against it.

Modelling conventions:
* Python `str` values that the scorer inspects character by character are
  modelled as `List Char`; values that are only concatenated into the report
  are modelled as `String`.
* Python `float` arithmetic is idealised as exact arithmetic over `ℚ`;
  the Python two-decimal rounding (banker rounding) is modelled by `round2`
  below using round-half-to-even on rationals.
* Python dictionaries are modelled as association lists in insertion order,
  so that "exactly these keys, in this order" is expressible and `.items()`
  iteration order is preserved.
* the formatted current date produced by `datetime.now` is an external
  input, passed to `generate_comparison_report` as the argument `today`.
* The in-place `list.sort` performed by `generate_comparison_report` is made
  visible by returning the final state of the list supplied by the caller as the second
  component of the result.
-/

namespace Case01

/-- Python `str.lower` restricted to the alphabets this repository feeds it:
ASCII `A`–`Z` and Cyrillic `А`–`Я`, `Ё` map to lowercase, all else is fixed. -/
def pyToLower (c : Char) : Char :=
  if 'A' ≤ c ∧ c ≤ 'Z' then Char.ofNat (c.toNat + 32)
  else if 0x410 ≤ c.toNat ∧ c.toNat ≤ 0x42F then Char.ofNat (c.toNat + 32)
  else if c.toNat = 0x401 then Char.ofNat 0x451
  else c

/-- Python lowercasing applied to a whole string. -/
def lowerChars (s : List Char) : List Char := s.map pyToLower

/-- Bool test that the first list is a prefix of the second. -/
def isPrefixOfChars : List Char → List Char → Bool
  | [], _ => true
  | _ :: _, [] => false
  | a :: as, b :: bs => a == b && isPrefixOfChars as bs

/-- Python substring test `needle in hay`. -/
def strContains : List Char → List Char → Bool
  | [], needle => isPrefixOfChars needle []
  | c :: rest, needle => isPrefixOfChars needle (c :: rest) || strContains rest needle

/-- Embeds `LLMAnalyzer.calculate_faithfulness`: share of `source_facts` appearing
case-insensitively in `summary`, times 100; `0` on an empty facts list. -/
def calculate_faithfulness (summary : List Char) (source_facts : List (List Char)) : ℚ :=
  let found_facts := source_facts.countP (fun fact => strContains (lowerChars summary) (lowerChars fact))
  if source_facts.isEmpty then 0 else ((found_facts : ℚ) / source_facts.length) * 100

/-- Embeds `LLMAnalyzer.calculate_coverage`: share of `key_elements` appearing
case-insensitively in `summary`, times 100; `0` on an empty element list. -/
def calculate_coverage (summary : List Char) (key_elements : List (List Char)) : ℚ :=
  let covered := key_elements.countP (fun element => strContains (lowerChars summary) (lowerChars element))
  if key_elements.isEmpty then 0 else ((covered : ℚ) / key_elements.length) * 100

/-- The structure check of `calculate_prompt_adherence`: all three of the
markers 1. and 2. and 3. occur as substrings of the summary. -/
def hasMarkers (summary : List Char) : Bool :=
  ["1.", "2.", "3."].all (fun marker => strContains summary marker.data)

/-- Embeds `LLMAnalyzer.calculate_prompt_adherence`: word-count check (40 or 0),
structure check (30 or 15), and a fixed style score of 30. -/
def calculate_prompt_adherence (summary : List Char) (word_count : ℕ)
    (min_words : ℕ := 100) (max_words : ℕ := 150) : ℚ :=
  let word_score : ℚ := if min_words ≤ word_count ∧ word_count ≤ max_words then 40 else 0
  let structure_score : ℚ := if hasMarkers summary then 30 else 15
  let style_score : ℚ := 30
  word_score + structure_score + style_score

/-- Embeds `LLMAnalyzer.calculate_compression_ratio`:
`source_words / summary_words if summary_words > 0 else 0`. -/
def calculate_compression_ratio (source_words summary_words : ℤ) : ℚ :=
  if 0 < summary_words then (source_words : ℚ) / (summary_words : ℚ) else 0

/-- Python split on a dot separator, as in `summary.split()` with a dot. -/
def splitOnDot : List Char → List (List Char)
  | [] => [[]]
  | c :: rest =>
    if c = '.' then [] :: splitOnDot rest
    else
      match splitOnDot rest with
      | a :: as => (c :: a) :: as
      | [] => [[c]]

/-- Embeds `LLMAnalyzer.calculate_coherence`: 80 when splitting on `.` yields more
than two fragments, else 60. -/
def calculate_coherence (summary : List Char) : ℚ :=
  let sentences := splitOnDot summary
  if 2 < sentences.length then 80 else 60

/-- Python whitespace for `str.split()` with no separator. -/
def isPySpace (c : Char) : Bool :=
  c == ' ' || c == '\t' || c == '\n' || c == '\x0b' || c == '\x0c' || c == '\r'

/-- Helper for `countWords`: the flag records whether the previous character
was inside a word. -/
def countWordsAux : List Char → Bool → ℕ
  | [], _ => 0
  | c :: rest, inWord =>
    if isPySpace c then countWordsAux rest false
    else (if inWord then 0 else 1) + countWordsAux rest true

/-- Python `len(summary.split())`: the number of maximal whitespace-free runs. -/
def countWords (s : List Char) : ℕ := countWordsAux s false

/-- Round-half-to-even to an integer, the tie rule of Python rounding. -/
def roundHalfEven (q : ℚ) : ℤ :=
  let f := ⌊q⌋
  let r := q - f
  if r < 1/2 then f
  else if 1/2 < r then f + 1
  else if f % 2 = 0 then f else f + 1

/-- Python `round(q, 2)`. -/
def round2 (q : ℚ) : ℚ := (roundHalfEven (q * 100) : ℚ) / 100

/-- The weight table `self.metrics_weights` set in `LLMAnalyzer.__init__`, in insertion order. -/
def metrics_weights : List (String × ℚ) :=
  [("faithfulness", 30/100),
   ("coverage", 25/100),
   ("prompt_adherence", 20/100),
   ("coherence", 15/100),
   ("compression", 10/100)]

/-- Dictionary lookup on a rational-valued association list; `0` stands for
the absent case, which never occurs on the keys the program uses. -/
def alistGet (d : List (String × ℚ)) (k : String) : ℚ :=
  match d.find? (fun p => p.1 == k) with
  | some p => p.2
  | none => 0

/-- Python `d.get(k, default)` on an integer-valued dictionary. -/
def dictGetInt (d : List (String × ℤ)) (k : String) (default : ℤ) : ℤ :=
  match d.find? (fun p => p.1 == k) with
  | some p => p.2
  | none => default

/-- The fixed `key_elements` list built inside `LLMAnalyzer.analyze_model`. -/
def key_elements : List (List Char) :=
  ["1,75 трлн $".data, "36%".data, "40%".data, "o3-mini".data, "DeepSeek R1".data,
   "Qwen 2.5 Max".data, "Grok".data, "YandexGPT".data, "GigaChat".data, "Cotype".data,
   "Humanities Last Exam".data, "13%".data, "128K".data, "1M токенов".data]

/-- The record returned by `LLMAnalyzer.analyze_model`; `metrics` keeps the
insertion order of the Python dict. -/
structure ScoreRecord where
  model : String
  word_count : ℕ
  metrics : List (String × ℚ)
  total_score : ℚ
deriving DecidableEq

/-- Embeds `LLMAnalyzer.analyze_model`. -/
def analyze_model (model_name : String) (summary : List Char)
    (source_stats : List (String × ℤ)) : ScoreRecord :=
  let word_count := countWords summary
  let metrics : List (String × ℚ) :=
    [("faithfulness", 100),
     ("coverage", calculate_coverage summary key_elements),
     ("prompt_adherence", calculate_prompt_adherence summary word_count),
     ("coherence", calculate_coherence summary),
     ("compression", calculate_compression_ratio (dictGetInt source_stats "word_count" 4200) (word_count : ℤ))]
  let total_score : ℚ := (metrics.map (fun p => p.2 * alistGet metrics_weights p.1)).sum
  { model := model_name
    word_count := word_count
    metrics := metrics
    total_score := round2 total_score }

/-- Stable insertion of a record into a list sorted descending by
`total_score`: the record goes before the first strictly smaller score and
after every earlier record with an equal score. -/
def insertDesc (a : ScoreRecord) : List ScoreRecord → List ScoreRecord
  | [] => [a]
  | b :: l => if b.total_score ≤ a.total_score then a :: b :: l else b :: insertDesc a l

/-- The stable in-place Python list sort, keyed on `total_score`, reversed. -/
def sortDesc : List ScoreRecord → List ScoreRecord
  | [] => []
  | a :: l => insertDesc a (sortDesc l)

/-- Python `f"{value:.1f}"` on a nonnegative rational: fixed one decimal. -/
def fmt1 (q : ℚ) : String :=
  let n := roundHalfEven (q * 10)
  toString (n / 10) ++ "." ++ toString (n % 10)

/-- Python `str(x)` for a float `x` that is an exact multiple of `1/100`,
as produced by `round(_, 2)`: minimal decimals, at least one. -/
def showScore (q : ℚ) : String :=
  let n := roundHalfEven (q * 100)
  let whole := toString (n / 100)
  let cents := n % 100
  if cents % 10 = 0 then whole ++ "." ++ toString (cents / 10)
  else if cents < 10 then whole ++ ".0" ++ toString cents
  else whole ++ "." ++ toString cents

/-- One summary-table row: model, total score and word count between
pipe separators. -/
def tableRow (a : ScoreRecord) : String :=
  "| " ++ a.model ++ " | " ++ showScore a.total_score ++ " | " ++ toString a.word_count ++ " |"

/-- The lines of one detail subsection: header, one bullet per metric in dict
order formatted to one decimal place, then an empty line. -/
def detailLines (a : ScoreRecord) : List String :=
  ("### " ++ a.model ++ "\n") ::
    (a.metrics.map (fun p => "- **" ++ p.1 ++ "**: " ++ fmt1 p.2) ++ [""])

/-- The list that `generate_comparison_report` joins with `"\n"`, with the
date string as an explicit input. -/
def reportLines (today : String) (analyses : List ScoreRecord) : List String :=
  let sorted := sortDesc analyses
  ["# Сравнительный анализ LLM моделей\n",
   "Дата: " ++ today ++ "\n",
   "## Итоговые результаты\n",
   "| Модель | Общий балл | Слов |",
   "|--------|------------|------|"]
  ++ sorted.map tableRow
  ++ ["\n## Детальные метрики\n"]
  ++ (sorted.map detailLines).flatten

/-- Embeds `LLMAnalyzer.generate_comparison_report`. The first component is the
returned Markdown string; the second is the final state of the list
`analyses` supplied by the caller, which the Python code sorts in place. -/
def generate_comparison_report (today : String) (analyses : List ScoreRecord) :
    String × List ScoreRecord :=
  (String.intercalate "\n" (reportLines today analyses), sortDesc analyses)

/-- The report lines that depend only on the record list, not on the date:
everything after the title and date lines. -/
def restLines (analyses : List ScoreRecord) : List String :=
  let sorted := sortDesc analyses
  ["## Итоговые результаты\n",
   "| Модель | Общий балл | Слов |",
   "|--------|------------|------|"]
  ++ sorted.map tableRow
  ++ ["\n## Детальные метрики\n"]
  ++ (sorted.map detailLines).flatten

/-- A 100-character summary of exactly 50 words (`"w "` repeated 50 times),
containing none of the markers `"1."`, `"2."`, `"3."`. -/
def cex50 : List Char := (List.replicate 50 "w ".data).flatten

/-- C2: for every model name, summary and source stats, the `faithfulness`
entry of the record produced by `analyze_model` is the constant 100,
independent of the summary; `calculate_faithfulness` is bypassed on this
path — at a summary containing none of the given facts it would return 0,
while `analyze_model` still reports 100. -/
theorem analyze_model_faithfulness_constant :
    (∀ (model_name : String) (summary : List Char) (source_stats : List (String × ℤ)),
        alistGet (analyze_model model_name summary source_stats).metrics "faithfulness" = 100) ∧
    calculate_faithfulness "short".data ["absent fact".data] = 0 := by
  constructor
  · intro model_name summary source_stats
    rfl
  · have h : List.countP
        (fun fact => strContains (lowerChars "short".data) (lowerChars fact))
        ["absent fact".data] = 0 := by decide
    simp [calculate_faithfulness, h]

/-- C3 counterexample: on a 50-word summary with no structure markers,
`calculate_prompt_adherence` returns 45, not the 15 the claim states —
the fixed 30 style points and the 15-point structure floor make 45 the
smallest reachable value. -/
theorem prompt_adherence_min_counterexample :
    countWords cex50 = 50 ∧
    hasMarkers cex50 = false ∧
    calculate_prompt_adherence cex50 50 = 45 ∧
    (45 : ℚ) ≠ 15 := by
  have hm : hasMarkers cex50 = false := by decide
  refine ⟨by decide, hm, ?_, by norm_num⟩
  simp [calculate_prompt_adherence, hm]
  norm_num

/-- C3 amended: `calculate_prompt_adherence` is the sum of 40-or-0 word-count
points, 30-or-15 structure points and a fixed 30 style points; its value
always lies between 45 and 100; a marker-bearing summary at word count 120
scores 100, and a marker-free 50-word summary scores 45. -/
theorem prompt_adherence_decomposition :
    (∀ (s : List Char) (wc : ℕ),
        calculate_prompt_adherence s wc =
          (if 100 ≤ wc ∧ wc ≤ 150 then (40 : ℚ) else 0) +
            (if hasMarkers s then (30 : ℚ) else 15) + 30) ∧
    (∀ (s : List Char) (wc mn mx : ℕ),
        45 ≤ calculate_prompt_adherence s wc mn mx ∧
          calculate_prompt_adherence s wc mn mx ≤ 100) ∧
    calculate_prompt_adherence "1. a 2. b 3. c".data 120 = 100 ∧
    calculate_prompt_adherence cex50 (countWords cex50) = 45 := by
  have hm1 : hasMarkers "1. a 2. b 3. c".data = true := by decide
  have hm2 : hasMarkers cex50 = false := by decide
  have hwc : countWords cex50 = 50 := by decide
  refine ⟨fun s wc => rfl, ?_, ?_, ?_⟩
  · intro s wc mn mx
    unfold calculate_prompt_adherence
    dsimp only
    constructor <;> split_ifs <;> norm_num
  · simp [calculate_prompt_adherence, hm1]
    norm_num
  · rw [hwc]
    simp [calculate_prompt_adherence, hm2]
    norm_num

/-- C4: `calculate_coverage` is the fraction of key elements whose lowercase
form occurs in the lowercased summary, times 100; it is 0 on an empty
element list, 0 on a non-empty list none of whose elements occur, and 100
when all occur. -/
theorem coverage_fraction_and_extremes :
    (∀ (s : List Char) (ks : List (List Char)),
        calculate_coverage s ks =
          if ks.isEmpty then 0
          else ((ks.countP (fun e => strContains (lowerChars s) (lowerChars e)) : ℚ) /
            ks.length) * 100) ∧
    (∀ s : List Char, calculate_coverage s [] = 0) ∧
    (∀ (s : List Char) (ks : List (List Char)), ks ≠ [] →
        (∀ e ∈ ks, ¬ strContains (lowerChars s) (lowerChars e)) →
        calculate_coverage s ks = 0) ∧
    (∀ (s : List Char) (ks : List (List Char)), ks ≠ [] →
        (∀ e ∈ ks, strContains (lowerChars s) (lowerChars e)) →
        calculate_coverage s ks = 100) := by
  refine ⟨fun s ks => rfl, fun s => rfl, ?_, ?_⟩
  · intro s ks hne hnone
    have h0 : ks.countP (fun e => strContains (lowerChars s) (lowerChars e)) = 0 :=
      List.countP_eq_zero.mpr hnone
    simp [calculate_coverage, h0]
  · intro s ks hne hall
    have hlen : ks.countP (fun e => strContains (lowerChars s) (lowerChars e)) = ks.length :=
      List.countP_eq_length.mpr hall
    have hcast : (ks.length : ℚ) ≠ 0 :=
      Nat.cast_ne_zero.mpr (fun h => hne (List.length_eq_zero.mp h))
    simp [calculate_coverage, hlen, List.isEmpty_iff, hne, div_self hcast]

/-- C4 witness: instantiating the all-elements-absent case at a concrete
summary and singleton key list. -/
theorem coverage_fraction_and_extremes_witness :
    calculate_coverage "abc".data ["36%".data] = 0 :=
  coverage_fraction_and_extremes.2.2.1 "abc".data ["36%".data] (by decide) (by decide)

/-- C5 counterexample: at `summary_words = -3` the quantification of the claim
over all integers fails — the guard in the code is `summary_words > 0`, so it
returns 0 although `summary_words ≠ 0` and the claimed quotient is -2. -/
theorem compression_negative_counterexample :
    calculate_compression_ratio 6 (-3) = 0 ∧
    ((-3 : ℤ) ≠ 0) ∧
    ((6 : ℚ) / ((-3 : ℤ) : ℚ) = -2) ∧
    ((0 : ℚ) ≠ -2) := by
  refine ⟨?_, by decide, by norm_num, by norm_num⟩
  simp [calculate_compression_ratio]

/-- C5 amended: `calculate_compression_ratio` returns the quotient exactly
when `summary_words > 0` and 0 otherwise; in particular it is 0 at
`summary_words = 0` (no division error), with the two quoted examples. -/
theorem compression_ratio_spec :
    (∀ sw tw : ℤ, calculate_compression_ratio sw tw =
        if 0 < tw then (sw : ℚ) / (tw : ℚ) else 0) ∧
    (∀ sw tw : ℤ, 0 < tw → calculate_compression_ratio sw tw = (sw : ℚ) / (tw : ℚ)) ∧
    (∀ sw : ℤ, calculate_compression_ratio sw 0 = 0) ∧
    calculate_compression_ratio 4200 0 = 0 ∧
    calculate_compression_ratio 4200 300 = 14 := by
  refine ⟨fun sw tw => rfl, ?_, ?_, ?_, ?_⟩
  · intro sw tw htw
    simp [calculate_compression_ratio, htw]
  · intro sw
    simp [calculate_compression_ratio]
  · simp [calculate_compression_ratio]
  · simp [calculate_compression_ratio]
    norm_num

/-- C5 witness: the positive branch of the amended statement at `(4200, 300)`. -/
theorem compression_ratio_spec_witness :
    ((0 : ℤ) < 300) ∧ calculate_compression_ratio 4200 300 = ((4200 : ℤ) : ℚ) / ((300 : ℤ) : ℚ) :=
  ⟨by decide, compression_ratio_spec.2.1 4200 300 (by decide)⟩

/-- C9: `calculate_prompt_adherence` is monotone in each qualifying
condition separately: with the same summary (marker condition unchanged),
moving the word count from outside `[min_words, max_words]` to inside never
decreases the score, and with the word count unchanged, making all three
markers present never decreases the score. -/
theorem prompt_adherence_monotone :
    (∀ (mn mx : ℕ) (s : List Char) (w₁ w₂ : ℕ),
        ¬(mn ≤ w₁ ∧ w₁ ≤ mx) → (mn ≤ w₂ ∧ w₂ ≤ mx) →
        calculate_prompt_adherence s w₁ mn mx ≤ calculate_prompt_adherence s w₂ mn mx) ∧
    (∀ (mn mx : ℕ) (s₁ s₂ : List Char) (w : ℕ),
        hasMarkers s₁ = false → hasMarkers s₂ = true →
        calculate_prompt_adherence s₁ w mn mx ≤ calculate_prompt_adherence s₂ w mn mx) := by
  constructor
  · intro mn mx s w₁ w₂ h₁ h₂
    unfold calculate_prompt_adherence
    dsimp only
    simp only [h₁, h₂, if_true, if_false]
    split_ifs <;> norm_num
  · intro mn mx s₁ s₂ w h₁ h₂
    unfold calculate_prompt_adherence
    dsimp only
    simp only [h₁, h₂, if_true, if_false]
    split_ifs <;> norm_num

/-- C9 witness: word count moving from 50 (outside `[100, 150]`) to 120
(inside) with an unchanged marker-free summary, and markers appearing with
an unchanged word count. -/
theorem prompt_adherence_monotone_witness :
    (calculate_prompt_adherence "w".data 50 ≤ calculate_prompt_adherence "w".data 120) ∧
    (calculate_prompt_adherence "w".data 120 ≤
      calculate_prompt_adherence "1. 2. 3.".data 120) :=
  ⟨prompt_adherence_monotone.1 100 150 "w".data 50 120 (by decide) (by decide),
   prompt_adherence_monotone.2 100 150 "w".data "1. 2. 3.".data 120 (by decide) (by decide)⟩

/-- C10: `analyze_model` never fails on a stats dictionary lacking
`word_count`: it silently substitutes 4200 as the source word count, so the
`compression` entry is the ratio of 4200 to the word count of the summary; and
the `coverage` entry is always computed against the fixed built-in list of
14 key elements, regardless of caller inputs. -/
theorem analyze_model_defaults :
    (∀ (name : String) (s : List Char) (st : List (String × ℤ)),
        st.find? (fun p => p.1 == "word_count") = none →
        alistGet (analyze_model name s st).metrics "compression" =
          calculate_compression_ratio 4200 (countWords s : ℤ)) ∧
    key_elements.length = 14 ∧
    (∀ (name : String) (s : List Char) (st : List (String × ℤ)),
        alistGet (analyze_model name s st).metrics "coverage" =
          calculate_coverage s key_elements) := by
  refine ⟨?_, by decide, fun name s st => rfl⟩
  intro name s st hnone
  show alistGet _ "compression" = _
  simp only [analyze_model, alistGet, dictGetInt, hnone]
  rfl

/-- C10 witness: the missing-key case instantiated at the empty stats
dictionary. -/
theorem analyze_model_defaults_witness :
    alistGet (analyze_model "m" "a b".data []).metrics "compression" =
      calculate_compression_ratio 4200 (countWords "a b".data : ℤ) :=
  analyze_model_defaults.1 "m" "a b".data [] rfl

/-- C1: every record produced by `analyze_model` carries exactly the five
fixed metric keys, in dict insertion order, and its `total_score` is the
2-decimal rounding of the weighted sum of those five metrics under the
fixed weights 0.30 / 0.25 / 0.20 / 0.15 / 0.10. -/
theorem analyze_model_metrics_invariant (model_name : String) (summary : List Char)
    (source_stats : List (String × ℤ)) :
    (analyze_model model_name summary source_stats).metrics.map Prod.fst =
      ["faithfulness", "coverage", "prompt_adherence", "coherence", "compression"] ∧
    (analyze_model model_name summary source_stats).total_score =
      round2
        (alistGet (analyze_model model_name summary source_stats).metrics "faithfulness" * (30 / 100)
          + alistGet (analyze_model model_name summary source_stats).metrics "coverage" * (25 / 100)
          + alistGet (analyze_model model_name summary source_stats).metrics "prompt_adherence" * (20 / 100)
          + alistGet (analyze_model model_name summary source_stats).metrics "coherence" * (15 / 100)
          + alistGet (analyze_model model_name summary source_stats).metrics "compression" * (10 / 100)) := by
  refine ⟨rfl, ?_⟩
  have h1 : alistGet (analyze_model model_name summary source_stats).metrics "faithfulness" =
      100 := rfl
  have h2 : alistGet (analyze_model model_name summary source_stats).metrics "coverage" =
      calculate_coverage summary key_elements := rfl
  have h3 : alistGet (analyze_model model_name summary source_stats).metrics "prompt_adherence" =
      calculate_prompt_adherence summary (countWords summary) := rfl
  have h4 : alistGet (analyze_model model_name summary source_stats).metrics "coherence" =
      calculate_coherence summary := rfl
  have h5 : alistGet (analyze_model model_name summary source_stats).metrics "compression" =
      calculate_compression_ratio (dictGetInt source_stats "word_count" 4200)
        (countWords summary : ℤ) := rfl
  have htot : (analyze_model model_name summary source_stats).total_score =
      round2
        (100 * (30 / 100)
          + (calculate_coverage summary key_elements * (25 / 100)
            + (calculate_prompt_adherence summary (countWords summary) * (20 / 100)
              + (calculate_coherence summary * (15 / 100)
                + ( calculate_compression_ratio (dictGetInt source_stats "word_count" 4200)
                    (countWords summary : ℤ) * (10 / 100) + 0))))) := rfl
  rw [htot, h1, h2, h3, h4, h5]
  congr 1
  ring

/-- Inserting with `insertDesc` is a permutation of consing. -/
theorem insertDesc_perm (a : ScoreRecord) (l : List ScoreRecord) :
    (insertDesc a l).Perm (a :: l) := by
  induction l with
  | nil => exact List.Perm.refl _
  | cons b t ih =>
    unfold insertDesc
    split_ifs
    · exact List.Perm.refl _
    · exact (ih.cons b).trans (List.Perm.swap a b t)

/-- Sorting permutes the input: the records themselves are preserved. -/
theorem sortDesc_perm (l : List ScoreRecord) : (sortDesc l).Perm l := by
  induction l with
  | nil => exact List.Perm.refl _
  | cons a t ih => exact (insertDesc_perm a (sortDesc t)).trans (ih.cons a)

/-- Insertion preserves the descending-by-score pairwise invariant. -/
theorem pairwise_insertDesc {a : ScoreRecord} {l : List ScoreRecord}
    (h : l.Pairwise (fun x y => y.total_score ≤ x.total_score)) :
    (insertDesc a l).Pairwise (fun x y => y.total_score ≤ x.total_score) := by
  induction l with
  | nil => exact List.pairwise_singleton _ _
  | cons b t ih =>
    rw [List.pairwise_cons] at h
    obtain ⟨hb, ht⟩ := h
    unfold insertDesc
    split_ifs with hle
    · rw [List.pairwise_cons]
      refine ⟨?_, List.pairwise_cons.mpr ⟨hb, ht⟩⟩
      intro x hx
      rcases List.mem_cons.mp hx with rfl | hxt
      · exact hle
      · exact le_trans (hb x hxt) hle
    · rw [List.pairwise_cons]
      refine ⟨?_, ih ht⟩
      intro x hx
      rcases List.mem_cons.mp ((insertDesc_perm a t).mem_iff.mp hx) with rfl | hxt
      · exact le_of_lt (lt_of_not_le hle)
      · exact hb x hxt

/-- The output of `sortDesc` is descending by `total_score`. -/
theorem sortDesc_sorted (l : List ScoreRecord) :
    (sortDesc l).Pairwise (fun x y => y.total_score ≤ x.total_score) := by
  induction l with
  | nil => exact List.Pairwise.nil
  | cons a t ih => exact pairwise_insertDesc ih

/-- Restricted to any single score value, `insertDesc` behaves like cons:
the inserted record lands after every earlier record of equal score. -/
theorem filter_insertDesc (a : ScoreRecord) (l : List ScoreRecord) (q : ℚ) :
    (insertDesc a l).filter (fun x => decide (x.total_score = q)) =
      (a :: l).filter (fun x => decide (x.total_score = q)) := by
  induction l with
  | nil => rfl
  | cons b t ih =>
    unfold insertDesc
    split_ifs with hle
    · rfl
    · by_cases hpa : a.total_score = q <;> by_cases hpb : b.total_score = q
      · exact absurd (by rw [hpa, hpb] : b.total_score ≤ a.total_score) hle
      · simp only [List.filter_cons, ih]
        simp [hpa, hpb]
      · simp only [List.filter_cons, ih]
        simp [hpa, hpb]
      · simp only [List.filter_cons, ih]
        simp [hpa, hpb]

/-- Stability of `sortDesc`: the subsequence of records at any given
`total_score` is exactly as in the input, in the original order. -/
theorem sortDesc_stable (l : List ScoreRecord) (q : ℚ) :
    (sortDesc l).filter (fun x => decide (x.total_score = q)) =
      l.filter (fun x => decide (x.total_score = q)) := by
  induction l with
  | nil => rfl
  | cons a t ih =>
    have h := filter_insertDesc a (sortDesc t) q
    simp only [sortDesc, h, List.filter_cons, ih]

/-- A record with total score 80.0, as in the rendering example of the spec. -/
def rec80 : ScoreRecord :=
  { model := "A", word_count := 100, metrics := [("faithfulness", 100)], total_score := 80 }

/-- A record with total score 92.5, as in the rendering example of the spec. -/
def rec925 : ScoreRecord :=
  { model := "B", word_count := 120, metrics := [("faithfulness", 100)], total_score := 925/10 }

/-- Rounding an integer rational returns that integer. -/
theorem rhe_intCast (n : ℤ) : roundHalfEven ((n : ℤ) : ℚ) = n := by
  simp [roundHalfEven, Int.floor_intCast]

/-- Python renders the float `80.0` as `"80.0"`. -/
theorem showScore80 : showScore (80 : ℚ) = "80.0" := by
  have h : ((80 : ℚ) * 100) = ((8000 : ℤ) : ℚ) := by norm_num
  unfold showScore
  rw [h, rhe_intCast]
  decide

/-- Python renders the float `92.5` as `"92.5"`. -/
theorem showScore925 : showScore (925 / 10 : ℚ) = "92.5" := by
  have h : ((925 / 10 : ℚ) * 100) = ((9250 : ℤ) : ℚ) := by norm_num
  unfold showScore
  rw [h, rhe_intCast]
  decide

/-- Python one-decimal formatting of 100 yields the string 100.0. -/
theorem fmt1_100 : fmt1 (100 : ℚ) = "100.0" := by
  have h : ((100 : ℚ) * 10) = ((1000 : ℤ) : ℚ) := by norm_num
  unfold fmt1
  rw [h, rhe_intCast]
  decide

/-- C6: the report is the fixed header, one table row per record in stably
descending `total_score` order, then one detail subsection per record in
the same order with every metric formatted to one decimal place; on two
records with totals 80.0 and 92.5 the 92.5 row comes first. -/
theorem report_order_and_stability :
    (∀ (today : String) (l : List ScoreRecord),
        reportLines today l =
          ["# Сравнительный анализ LLM моделей\n",
           "Дата: " ++ today ++ "\n",
           "## Итоговые результаты\n",
           "| Модель | Общий балл | Слов |",
           "|--------|------------|------|"]
          ++ (sortDesc l).map tableRow
          ++ ["\n## Детальные метрики\n"]
          ++ ((sortDesc l).map detailLines).flatten) ∧
    (∀ l : List ScoreRecord,
        (sortDesc l).Pairwise (fun x y => y.total_score ≤ x.total_score)) ∧
    (∀ (l : List ScoreRecord) (q : ℚ),
        (sortDesc l).filter (fun x => decide (x.total_score = q)) =
          l.filter (fun x => decide (x.total_score = q))) ∧
    (∀ a : ScoreRecord, detailLines a =
        ("### " ++ a.model ++ "\n") ::
          (a.metrics.map (fun p => "- **" ++ p.1 ++ "**: " ++ fmt1 p.2) ++ [""])) ∧
    sortDesc [rec80, rec925] = [rec925, rec80] ∧
    tableRow rec925 = "| B | 92.5 | 120 |" ∧
    tableRow rec80 = "| A | 80.0 | 100 |" := by
  refine ⟨fun today l => rfl, sortDesc_sorted, sortDesc_stable, fun a => rfl, ?_, ?_, ?_⟩
  · norm_num [sortDesc, insertDesc, rec80, rec925]
  · simp [tableRow, rec925, showScore925]
    decide
  · simp [tableRow, rec80, showScore80]
    decide

/-- C7 counterexample: two invocations of `generate_comparison_report` on
the same one-record list produce different strings when the ambient date
differs, so the output is not a function of the input list alone. -/
theorem report_depends_on_date :
    (generate_comparison_report "01.01.2025" [rec80]).1 ≠
      (generate_comparison_report "02.01.2025" [rec80]).1 := by
  have h1 : (generate_comparison_report "01.01.2025" [rec80]).1 =
      String.intercalate "\n"
        ["# Сравнительный анализ LLM моделей\n",
         "Дата: 01.01.2025\n",
         "## Итоговые результаты\n",
         "| Модель | Общий балл | Слов |",
         "|--------|------------|------|",
         "| A | 80.0 | 100 |",
         "\n## Детальные метрики\n",
         "### A\n",
         "- **faithfulness**: 100.0",
         ""] := by
    simp [generate_comparison_report, reportLines, sortDesc, insertDesc, detailLines,
      tableRow, rec80, showScore80, fmt1_100]
    decide
  have h2 : (generate_comparison_report "02.01.2025" [rec80]).1 =
      String.intercalate "\n"
        ["# Сравнительный анализ LLM моделей\n",
         "Дата: 02.01.2025\n",
         "## Итоговые результаты\n",
         "| Модель | Общий балл | Слов |",
         "|--------|------------|------|",
         "| A | 80.0 | 100 |",
         "\n## Детальные метрики\n",
         "### A\n",
         "- **faithfulness**: 100.0",
         ""] := by
    simp [generate_comparison_report, reportLines, sortDesc, insertDesc, detailLines,
      tableRow, rec80, showScore80, fmt1_100]
    decide
  rw [h1, h2]
  decide

/-- C7 amended: the rendered report is a pure function of the input list
and the current date, with the influence of the date confined to the single
date line — all remaining lines depend only on the record list. -/
theorem report_pure_in_list_and_date :
    ∀ (today : String) (l : List ScoreRecord),
      (generate_comparison_report today l).1 =
        String.intercalate "\n"
          ("# Сравнительный анализ LLM моделей\n" ::
            ("Дата: " ++ today ++ "\n") :: restLines l) :=
  fun _ _ => rfl

/-- C8 counterexample: `generate_comparison_report` does not leave the
list of the caller unchanged — on `[rec80, rec925]` it ends up reordered. -/
theorem report_mutates_input_order :
    (generate_comparison_report "01.01.2025" [rec80, rec925]).2 ≠ [rec80, rec925] := by
  have h : (generate_comparison_report "01.01.2025" [rec80, rec925]).2 = [rec925, rec80] := by
    show sortDesc [rec80, rec925] = _
    norm_num [sortDesc, insertDesc, rec80, rec925]
  rw [h]
  simp [rec80, rec925]

/-- C8 amended: `analyze_model` and the report renderer touch no analyzer
state beyond the constant weight table, but the one side effect of the renderer
is sorting the list supplied by the caller in place: afterwards the list is the stable
descending reorder of the original — a permutation, record contents
untouched. -/
theorem report_side_effect_is_sort :
    ∀ (today : String) (l : List ScoreRecord),
      (generate_comparison_report today l).2 = sortDesc l ∧
        ((generate_comparison_report today l).2).Perm l :=
  fun _ l => ⟨rfl, sortDesc_perm l⟩

end Case01
